import Mathlib

/-!
# kube-plex: launching a one-shot transcoder pod

A shallow embedding of `main.go`.  Pure helpers (`rewriteArgs`, `generatePod`)
are Lean functions; Go run-time panics are `Except Panic`.  The stateful part
(`main`, `waitForPodCompletion`) is a function from a scripted environment
(`World`: the orchestrator's answers and the signal that reaches the process)
to the sequence of calls it issues and the way the process ends.

Types of the Kubernetes API (`corev1.Pod` and friends) are library types; only
the fields that `main.go` reads or writes are named, and the remaining content
of a volume mount, a volume and an environment variable is carried as an
uninterpreted payload (`μ`, `ν`, `ε`).
-/

namespace KubePlex

/-! ## Library types and functions -/

/-- Go run-time panics that `main.go` can raise. -/
inductive Panic where
  /-- Panic `index out of range [index] with length length`. -/
  | indexOutOfRange (index length : Nat)
  deriving DecidableEq, Repr

deriving instance DecidableEq for Except

/-- Go `map[string]string` as an association list (first binding wins). -/
abbrev StringMap := List (String × String)

/-- Go map indexing `m[k]`: the zero value `""` for a missing key. -/
def StringMap.index (m : StringMap) (k : String) : String :=
  (m.lookup k).getD ""

/-- Go `strings.HasPrefix(s, pre)`.  Go compares bytes; on valid UTF-8 text
the test by bytes and the test by characters agree. -/
def HasPrefix (s pre : String) : Bool :=
  pre.data.isPrefixOf s.data

/-- Replace the leftmost occurrence of `old` in a character list by `new`. -/
def replaceFirst (old new : List Char) : List Char → List Char
  | [] => if old = [] then new else []
  | c :: cs =>
    if old.isPrefixOf (c :: cs) then new ++ (c :: cs).drop old.length
    else c :: replaceFirst old new cs

/-- Go `strings.Replace(s, old, new, 1)`: the first occurrence of `old` in `s`
is replaced by `new`; `s` is returned as it is when `old` does not occur. -/
def Replace1 (s old new : String) : String :=
  ⟨replaceFirst old.data new.data s.data⟩

/-- Library type `corev1.VolumeMount`: its `Name` and the rest of its fields. -/
structure VolumeMount (μ : Type) where
  Name : String
  rest : μ
  deriving DecidableEq, Repr

/-- Library type `corev1.Volume`: its `Name` and its `VolumeSource`. -/
structure Volume (ν : Type) where
  Name : String
  VolumeSource : ν
  deriving DecidableEq, Repr

/-- Library type `corev1.Container`, with `ε` for `corev1.EnvVar`. -/
structure Container (μ ε : Type) where
  Name : String
  Command : List String
  Image : String
  Env : List ε
  WorkingDir : String
  VolumeMounts : List (VolumeMount μ)
  deriving DecidableEq, Repr

/-- Library type `metav1.ObjectMeta`. -/
structure ObjectMeta where
  Name : String
  GenerateName : String
  Namespace : String
  Labels : StringMap
  deriving DecidableEq, Repr

/-- Library type `corev1.PodSpec`. -/
structure PodSpec (μ ν ε : Type) where
  NodeSelector : StringMap
  RestartPolicy : String
  Containers : List (Container μ ε)
  Volumes : List (Volume ν)
  deriving DecidableEq, Repr

/-- Library type `corev1.PodStatus`; `corev1.PodPhase` is a string type. -/
structure PodStatus where
  Phase : String
  deriving DecidableEq, Repr

/-- Library type `corev1.Pod`. -/
structure Pod (μ ν ε : Type) where
  Meta : ObjectMeta
  Spec : PodSpec μ ν ε
  Status : PodStatus
  deriving DecidableEq, Repr

/-- Constant `corev1.RestartPolicyNever`. -/
def RestartPolicyNever : String := "Never"
/-- Constant `corev1.PodPending`. -/
def PodPending : String := "Pending"
/-- Constant `corev1.PodRunning`. -/
def PodRunning : String := "Running"
/-- Constant `corev1.PodSucceeded`. -/
def PodSucceeded : String := "Succeeded"
/-- Constant `corev1.PodFailed`. -/
def PodFailed : String := "Failed"
/-- Constant `corev1.PodUnknown`. -/
def PodUnknown : String := "Unknown"

/-! ## `generatePod` (main.go, lines 91-129) -/

section GeneratePod
variable {μ ν ε : Type}

/-- The guard of both copy loops (lines 117 and 123):
`name != "shared" && !strings.HasPrefix(name, "kube")`. -/
def keepName (name : String) : Bool :=
  name != "shared" && !HasPrefix name "kube"

/-- Body of the loop of lines 116-121: the mount is appended to
`pod.Spec.Containers[0].VolumeMounts` when its name passes the guard.  The pod
under construction has one container, so index 0 is always there. -/
def addVolumeMount (pod : Pod μ ν ε) (currentPodVolumeMount : VolumeMount μ) :
    Pod μ ν ε :=
  if keepName currentPodVolumeMount.Name then
    { pod with
      Spec := { pod.Spec with
        Containers := pod.Spec.Containers.modifyHead fun c =>
          { c with VolumeMounts := c.VolumeMounts ++ [currentPodVolumeMount] } } }
  else pod

/-- Body of the loop of lines 122-127: the volume is appended to
`pod.Spec.Volumes` when its name passes the guard. -/
def addVolume (pod : Pod μ ν ε) (currentPodVolume : Volume ν) : Pod μ ν ε :=
  if keepName currentPodVolume.Name then
    { pod with
      Spec := { pod.Spec with Volumes := pod.Spec.Volumes ++ [currentPodVolume] } }
  else pod

/-- The pod literal of lines 94-115, given the reference pod's first container. -/
def podLiteral (currentPod : Pod μ ν ε) (c0 : Container μ ε) (cwd : String)
    (args : List String) : Pod μ ν ε :=
  { Meta :=
      { Name := ""
        GenerateName := currentPod.Meta.Labels.index "app" ++ "-transcoder-"
        Namespace := ""
        Labels := [] }
    Spec :=
      { NodeSelector := [("beta.kubernetes.io/arch", "amd64")]
        RestartPolicy := RestartPolicyNever
        Containers :=
          [{ Name := "plex"
             Command := args
             Image := c0.Image
             Env := c0.Env
             WorkingDir := cwd
             VolumeMounts := [] }]
        Volumes := [] }
    Status := { Phase := "" } }

/-- Function `generatePod`.  `currentPod.Spec.Containers[0]` panics with an
index-out-of-range error when the reference pod has no container. -/
def generatePod (currentPod : Pod μ ν ε) (cwd : String) (args : List String) :
    Except Panic (Pod μ ν ε) :=
  match currentPod.Spec.Containers with
  | [] => .error (.indexOutOfRange 0 0)
  | c0 :: _ =>
    let pod := podLiteral currentPod c0 cwd args
    let pod := c0.VolumeMounts.foldl addVolumeMount pod
    let pod := currentPod.Spec.Volumes.foldl addVolume pod
    .ok pod

end GeneratePod

/-! ## `rewriteArgs` (main.go, lines 80-89) -/

/-- First case of the switch (line 83). -/
def isUrlFlag (v : String) : Bool :=
  v == "-progressurl" || v == "-manifest_name" || v == "-segment_list"

/-- Second case of the switch (line 85). -/
def isLogFlag (v : String) : Bool :=
  v == "-loglevel" || v == "-loglevel_plex"

/-- One of the five flags that the switch recognises. -/
def isFlag (v : String) : Bool :=
  isUrlFlag v || isLogFlag v

/-- The loopback placeholder of line 84. -/
def placeholder : String := "http://127.0.0.1:32400"

/-- The loop `for i, v := range in` with `n` iterations left, at index `i`, on
the current content `inp` of the slice.  The slice is written in place, so the
`v` read at index `i` is the content as left by the earlier iterations; an
access `in[i+1]` past the end panics.  The index `i` stays below the length,
so the branch for a failed read of `in[i]` is never taken. -/
def rewriteArgsLoop (pmsInternalAddress : String) :
    Nat → Nat → List String → Except Panic (List String)
  | 0, _, inp => .ok inp
  | n + 1, i, inp =>
    match inp[i]? with
    | none => .ok inp
    | some v =>
      if isUrlFlag v then
        match inp[i + 1]? with
        | none => .error (.indexOutOfRange (i + 1) inp.length)
        | some x =>
          rewriteArgsLoop pmsInternalAddress n (i + 1)
            (inp.set (i + 1) (Replace1 x placeholder pmsInternalAddress))
      else if isLogFlag v then
        if i + 1 < inp.length then
          rewriteArgsLoop pmsInternalAddress n (i + 1) (inp.set (i + 1) "debug")
        else .error (.indexOutOfRange (i + 1) inp.length)
      else rewriteArgsLoop pmsInternalAddress n (i + 1) inp

/-- Function `rewriteArgs`; the package variable `pmsInternalAddress` is its
first argument, the result is the content of the slice after the call. -/
def rewriteArgs (pmsInternalAddress : String) (inp : List String) :
    Except Panic (List String) :=
  rewriteArgsLoop pmsInternalAddress inp.length 0 inp

/-- What the iteration that reads `v` at index `i` leaves at index `i + 1`,
where `x` stood. -/
def rewriteNext (pmsInternalAddress v x : String) : String :=
  if isUrlFlag v then Replace1 x placeholder pmsInternalAddress
  else if isLogFlag v then "debug"
  else x

/-- The loop of `rewriteArgs` by recursion on the part of the slice not yet
visited: `v` is the element about to be read, `rest` what follows it, and `len`
the length of the whole slice.  It is shown equal to `rewriteArgsLoop` in
`rewriteArgsLoop_eq` and serves the proofs only. -/
def rewriteTail (pmsInternalAddress : String) (len : Nat) :
    String → List String → Except Panic (List String)
  | v, [] => if isFlag v then .error (.indexOutOfRange len len) else .ok [v]
  | v, x :: rest =>
    (rewriteTail pmsInternalAddress len (rewriteNext pmsInternalAddress v x) rest).map (v :: ·)

/-- The five flags of the switch. -/
def flags : List String :=
  ["-progressurl", "-manifest_name", "-segment_list", "-loglevel", "-loglevel_plex"]

/-! ## `waitForPodCompletion` and `main` (main.go, lines 22-78 and 143-162)

The run of `main` is the sequence of calls it makes to the orchestrator and to
the signal package, followed by the way the process ends.  Calls to `log.Printf`
and `time.Sleep` carry no data and are left out; `log.Fatalf` ends the run.

Two facts of the run-time environment are part of the model.  Until
`signals.SetupSignalHandler` has run, an interrupt or termination signal ends
the process at once (the default action of the Go run time).  The client built
by `kubernetes.NewForConfig` refuses a `Get` or `Delete` for the empty resource
name itself, with an error, before anything is sent to the orchestrator. -/

section Lifecycle
variable {μ ν ε : Type}

/-- The non-nil results of `waitForPodCompletion`. -/
inductive WaitError where
  /-- The error of the failed `Get`, returned as it is (line 147). -/
  | fetch (err : String)
  /-- Result of `fmt.Errorf("pod %q failed", pod.Name)` (line 156), for the fetched pod. -/
  | podFailed (name : String)
  deriving DecidableEq, Repr

/-- The case of the `select` of lines 64-71 that ran. -/
inductive SelectCase where
  /-- Case `err := <-waitFn()`, with the value received. -/
  | waiter (err : Option WaitError)
  /-- Case `<-stopCh`. -/
  | stop
  deriving DecidableEq, Repr

/-- Observable steps of a run. -/
inductive Event (μ ν ε : Type) where
  /-- Call `Pods(ns).Get(ctx, name, ...)`. -/
  | Get (ns name : String)
  /-- Call `Pods(ns).Create(ctx, pod, ...)`. -/
  | Create (ns : String) (pod : Pod μ ν ε)
  /-- Call `signals.SetupSignalHandler()`. -/
  | SetupSignalHandler
  /-- The `select` statement completes through the given case. -/
  | Select (c : SelectCase)
  /-- Call `Pods(ns).Delete(ctx, name, ...)`. -/
  | Delete (ns name : String)
  deriving DecidableEq, Repr

/-- How the process ends. -/
inductive Ending where
  /-- Function `main` returns: exit status 0. -/
  | returned
  /-- Call of `log.Fatalf` with the given message: exit status 1. -/
  | fatal (msg : String)
  /-- A run-time panic. -/
  | panicked (p : Panic)
  /-- The `select` never completes: the waiter polls for ever and no signal comes. -/
  | blocked
  /-- A signal arrived while no handler was registered: the process is ended
  by the default action, where it stands. -/
  | killed
  deriving DecidableEq, Repr

/-- The moment at which an interrupt or termination signal reaches the process. -/
inductive Signal where
  /-- Before the fetch of the reference pod (line 42). -/
  | beforeGet
  /-- After the reference pod was fetched, before the create call (line 49). -/
  | beforeCreate
  /-- After the create call has returned with success, before the call of
  `signals.SetupSignalHandler` (line 55). -/
  | beforeHandler
  /-- After the handler was registered, when the waiter has issued `fetches`
  fetches. -/
  | duringWait (fetches : Nat)
  deriving DecidableEq, Repr

/-- A run of `main`. -/
structure Run (μ ν ε : Type) where
  trace : List (Event μ ν ε)
  ending : Ending
  deriving DecidableEq, Repr

/-- State of `waitForPodCompletion` once the scripted answers are used up. -/
inductive WaitResult where
  /-- The function returned `err`. -/
  | returned (err : Option WaitError)
  /-- Still in the loop, about to fetch again. -/
  | polling
  deriving DecidableEq, Repr

/-- Function `waitForPodCompletion`.  The client `cl` is the list of answers
that its successive `Get` calls receive.  The result is the list of calls made
and the value returned.  Inside the loop the fetched pod shadows the parameter
only after the call, so every fetch is addressed with the fields of the
parameter `pod`. -/
def waitForPodCompletion (cl : List (Except String (Pod μ ν ε))) (pod : Pod μ ν ε) :
    List (Event μ ν ε) × WaitResult :=
  match cl with
  | [] => ([], .polling)
  | answer :: rest =>
    let call : Event μ ν ε := .Get pod.Meta.Namespace pod.Meta.Name
    match answer with
    | .error err => ([call], .returned (some (.fetch err)))
    | .ok fetched =>
      if fetched.Status.Phase = PodPending then
        let r := waitForPodCompletion rest pod
        (call :: r.1, r.2)
      else if fetched.Status.Phase = PodRunning then
        let r := waitForPodCompletion rest pod
        (call :: r.1, r.2)
      else if fetched.Status.Phase = PodUnknown then
        let r := waitForPodCompletion rest pod
        (call :: r.1, r.2)
      else if fetched.Status.Phase = PodFailed then
        ([call], .returned (some (.podFailed fetched.Meta.Name)))
      else if fetched.Status.Phase = PodSucceeded then
        ([call], .returned none)
      else
        let r := waitForPodCompletion rest pod
        (call :: r.1, r.2)

/-- Everything outside the process that a run of `main` depends on. -/
structure World (μ ν ε : Type) where
  /-- Variable `os.Args`. -/
  Args : List String
  /-- Package variable `namespace` (environment variable `KUBE_NAMESPACE`). -/
  kubeNamespace : String
  /-- Package variable `currentPodName` (`KUBE_POD_NAME`). -/
  currentPodName : String
  /-- Package variable `pmsInternalAddress` (`PMS_INTERNAL_ADDRESS`). -/
  pmsInternalAddress : String
  /-- The error of `clientcmd.BuildConfigFromFlags`, if any. -/
  buildConfig : Option String
  /-- The error of `kubernetes.NewForConfig`, if any. -/
  newForConfig : Option String
  /-- The result of `os.Getwd`. -/
  getwd : Except String String
  /-- The orchestrator's answer to the `Get` of line 42. -/
  getCurrentPod : Except String (Pod μ ν ε)
  /-- The orchestrator's answer to the `Create` of line 49, for the pod sent.
  The client decodes the answer into a fresh object: the pod sent is not
  changed by the call. -/
  create : Pod μ ν ε → Except String (Pod μ ν ε)
  /-- The orchestrator's answers, in order, to those `Get` calls of the waiter
  that reach it. -/
  statusFetches : List (Except String (Pod μ ν ε))
  /-- The signal that reaches the process, if any.  Before the handler is
  registered it ends the process.  Afterwards it fires the stop channel returned
  by `signals.SetupSignalHandler`, a single-fire cancellation event (package
  `pkg/signals` is not part of this development; what happens on a second
  signal is left open by its contract and is not modelled).  A signal that
  comes when the process is about to end by itself, or after the `select` has
  completed, changes no call of the run and is not told apart from no signal. -/
  signal : Option Signal
  /-- The orchestrator's error for the `Delete` of line 74, if any, when the
  call reaches it. -/
  delete : Option String

/-- The error with which the client refuses a request for the empty resource
name. -/
def emptyNameError : String := "resource name may not be empty"

/-- A `Get` for `name` through the client: refused for the empty name,
otherwise the orchestrator's answer. -/
def restGet (name : String) (answer : Except String (Pod μ ν ε)) :
    Except String (Pod μ ν ε) :=
  if name = "" then .error emptyNameError else answer

/-- The answers that the waiter's successive `Get` calls for `name` receive
through the client: for the empty name the first call is refused at once,
otherwise they are the orchestrator's answers. -/
def restGets (name : String) (answers : List (Except String (Pod μ ν ε))) :
    List (Except String (Pod μ ν ε)) :=
  if name = "" then [.error emptyNameError] else answers

/-- The error of a `Delete` for `name` through the client: the refusal for the
empty name, otherwise the orchestrator's. -/
def restDelete (name : String) (answer : Option String) : Option String :=
  if name = "" then some emptyNameError else answer

/-- The firing of the stop channel: with `some n`, the channel fires and the
`select` takes the stop case when the waiter has issued `n` fetches, unless the
waiter has returned after fewer fetches than that; `none`: it does not fire. -/
def stopAfter : Option Signal → Option Nat
  | some (.duringWait fetches) => some fetches
  | _ => none

/-- The `select` of lines 64-71: the race between the waiter goroutine, whose
calls and result are `w`, and the stop channel.  The result is the waiter's
calls up to the moment the `select` completes and the case taken (`none` when
it never completes).  Fetches that the abandoned waiter goroutine may still
issue after the stop case was taken are not recorded; they are the same call
as the recorded ones. -/
def selectWait (w : List (Event μ ν ε) × WaitResult) (stop : Option Nat) :
    List (Event μ ν ε) × Option SelectCase :=
  match stop, w.2 with
  | some n, .returned err =>
    if n ≤ w.1.length then (w.1.take n, some .stop) else (w.1, some (.waiter err))
  | some n, .polling => (w.1.take n, some .stop)
  | none, .returned err => (w.1, some (.waiter err))
  | none, .polling => (w.1, none)

/-- Lines 55-77 of `main`: from the signal handler's set-up to the end, for
the generated pod `pod`.  The `createdPod` of line 49 is used by the log line
53 only. -/
def mainAfterCreate (w : World μ ν ε) (pod : Pod μ ν ε) : Run μ ν ε :=
  let s := selectWait (waitForPodCompletion (restGets pod.Meta.Name w.statusFetches) pod)
    (stopAfter w.signal)
  match s.2 with
  | none => ⟨.SetupSignalHandler :: s.1, .blocked⟩
  | some c =>
    let trace := .SetupSignalHandler :: s.1 ++ [.Select c, .Delete w.kubeNamespace pod.Meta.Name]
    match restDelete pod.Meta.Name w.delete with
    | some err => ⟨trace, .fatal ("Error cleaning up pod: " ++ err)⟩
    | none => ⟨trace, .returned⟩

/-- Function `main`.  No handler is registered before line 55, so a signal
that arrives earlier ends the run where it stands. -/
def main (w : World μ ν ε) : Run μ ν ε :=
  match rewriteArgs w.pmsInternalAddress w.Args with
  | .error p => ⟨[], .panicked p⟩
  | .ok args =>
  match w.buildConfig with
  | some err => ⟨[], .fatal ("Error building kubeconfig: " ++ err)⟩
  | none =>
  match w.newForConfig with
  | some err => ⟨[], .fatal ("Error building kubernetes clientset: " ++ err)⟩
  | none =>
  match w.getwd with
  | .error err => ⟨[], .fatal ("Error getting working directory: " ++ err)⟩
  | .ok cwd =>
  if w.signal = some .beforeGet then ⟨[], .killed⟩ else
  match restGet w.currentPodName w.getCurrentPod with
  | .error err =>
    ⟨[.Get w.kubeNamespace w.currentPodName], .fatal ("Error getting current pod: " ++ err)⟩
  | .ok currentPod =>
  match generatePod currentPod cwd args with
  | .error p => ⟨[.Get w.kubeNamespace w.currentPodName], .panicked p⟩
  | .ok pod =>
  if w.signal = some .beforeCreate then
    ⟨[.Get w.kubeNamespace w.currentPodName], .killed⟩
  else
  match w.create pod with
  | .error err =>
    ⟨[.Get w.kubeNamespace w.currentPodName, .Create w.kubeNamespace pod],
      .fatal ("Error creating pod: " ++ err)⟩
  | .ok _createdPod =>
  if w.signal = some .beforeHandler then
    ⟨[.Get w.kubeNamespace w.currentPodName, .Create w.kubeNamespace pod], .killed⟩
  else
    let r := mainAfterCreate w pod
    ⟨.Get w.kubeNamespace w.currentPodName :: .Create w.kubeNamespace pod :: r.trace, r.ending⟩

/-- The event is a `Create` call. -/
def Event.isCreate : Event μ ν ε → Bool
  | .Create _ _ => true
  | _ => false

/-- The event is a `Delete` call. -/
def Event.isDelete : Event μ ν ε → Bool
  | .Delete _ _ => true
  | _ => false

/-- The event is the completion of the `select`. -/
def Event.isSelect : Event μ ν ε → Bool
  | .Select _ => true
  | _ => false

/-- The event is the registration of the signal handler. -/
def Event.isSetup : Event μ ν ε → Bool
  | .SetupSignalHandler => true
  | _ => false

/-- The answers on which the wait is said to end: a fetch error, phase
`Failed` or phase `Succeeded`. -/
def isTerminal (answer : Except String (Pod μ ν ε)) : Bool :=
  match answer with
  | .error _ => true
  | .ok fetched => fetched.Status.Phase == "Failed" || fetched.Status.Phase == "Succeeded"

end Lifecycle

/-! ## Sample inputs -/

/-- A reference pod: label `app=plex`, one container with four mounts, and the
volumes `[shared, kube-api-access-xyz, data]` of the scenario. -/
def sampleRef : Pod String String String :=
  { Meta := ⟨"plex-0", "", "media", [("app", "plex")]⟩
    Spec :=
      { NodeSelector := []
        RestartPolicy := "Always"
        Containers :=
          [{ Name := "pms"
             Command := ["/init"]
             Image := "plexinc/pms-docker:latest"
             Env := ["TZ=UTC", "PLEX_CLAIM=claim-x"]
             WorkingDir := "/"
             VolumeMounts :=
               [⟨"shared", "/shared"⟩, ⟨"kube-api-access-xyz", "/var/run/secrets"⟩,
                ⟨"data", "/data"⟩] }]
        Volumes := [⟨"shared", "emptyDir"⟩, ⟨"kube-api-access-xyz", "projected"⟩, ⟨"data", "pvc"⟩] }
    Status := ⟨"Running"⟩ }

/-- An argument vector with no flag to rewrite. -/
def sampleArgs : List String := ["/usr/lib/plexmediaserver/Plex Transcoder", "-i", "movie.mkv"]

/-- An argument vector with a URL flag and a log-level flag. -/
def sampleFlagArgs : List String :=
  ["/usr/lib/plexmediaserver/Plex Transcoder", "-progressurl",
   "http://127.0.0.1:32400/video/:/transcode/session/abc/progress", "-loglevel", "quiet",
   "out.mpd"]

/-- An argument vector in which a flag stands where a flag's value is read. -/
def flagAsValueArgs : List String :=
  ["-loglevel", "-progressurl", "http://127.0.0.1:32400/x"]

/-- The pod that `generatePod` derives from `sampleRef`. -/
def samplePod : Pod String String String :=
  { Meta := ⟨"", "plex-transcoder-", "", []⟩
    Spec :=
      { NodeSelector := [("beta.kubernetes.io/arch", "amd64")]
        RestartPolicy := "Never"
        Containers :=
          [{ Name := "plex"
             Command := sampleArgs
             Image := "plexinc/pms-docker:latest"
             Env := ["TZ=UTC", "PLEX_CLAIM=claim-x"]
             WorkingDir := "/transcode"
             VolumeMounts := [⟨"data", "/data"⟩] }]
        Volumes := [⟨"data", "pvc"⟩] }
    Status := ⟨""⟩ }

/-- An orchestrator that stores the pod sent under the generated name
`<GenerateName>x7k2p` in namespace `media`, in phase `Pending`. -/
def sampleCreate (pod : Pod String String String) :
    Except String (Pod String String String) :=
  .ok { pod with
        Meta := { pod.Meta with Name := pod.Meta.GenerateName ++ "x7k2p", Namespace := "media" }
        Status := ⟨"Pending"⟩ }

/-- The created pod as the orchestrator reports it in the given phase. -/
def statusAnswer (phase : String) : Except String (Pod String String String) :=
  .ok { samplePod with
        Meta := { samplePod.Meta with Name := "plex-transcoder-x7k2p", Namespace := "media" }
        Status := ⟨phase⟩ }

/-- A world in which every step of the bootstrap succeeds, the orchestrator
accepts the pod, and no signal arrives.  The status answers are those the
orchestrator holds for the created pod, in the phases
`[Pending, Pending, Running, Succeeded]`. -/
def sampleWorld : World String String String :=
  { Args := sampleArgs
    kubeNamespace := "media"
    currentPodName := "plex-0"
    pmsInternalAddress := "http://plex:32400"
    buildConfig := none
    newForConfig := none
    getwd := .ok "/transcode"
    getCurrentPod := .ok sampleRef
    create := sampleCreate
    statusFetches :=
      [statusAnswer "Pending", statusAnswer "Pending", statusAnswer "Running",
       statusAnswer "Succeeded"]
    signal := none
    delete := none }

/-- The same world with a signal arriving during the wait, before the
waiter's first fetch. -/
def cancelledWorld : World String String String :=
  { sampleWorld with signal := some (.duringWait 0) }

/-- The same world with a signal arriving after the create call has returned
and before the handler is registered. -/
def gapSignalWorld : World String String String :=
  { sampleWorld with signal := some .beforeHandler }

/-- The same world with the create call refused. -/
def createRefusedWorld : World String String String :=
  { sampleWorld with create := fun _ => .error "forbidden" }

/-- The same world with the fetch of the reference pod refused. -/
def noReferenceWorld : World String String String :=
  { sampleWorld with getCurrentPod := .error "not found" }

/-- A run against an orchestrator that refuses requests for the empty name. -/
def emptyNameWorld : World String String String :=
  { sampleWorld with
    statusFetches := [.error "resource name may not be empty"]
    delete := some "resource name may not be empty" }

/-! ## Lemmas on `generatePod` -/

section GeneratePodLemmas
variable {μ ν ε : Type}

theorem foldl_addVolumeMount (ms : List (VolumeMount μ)) (pod : Pod μ ν ε)
    (c : Container μ ε) (cs : List (Container μ ε)) (h : pod.Spec.Containers = c :: cs) :
    ms.foldl addVolumeMount pod =
      { pod with
        Spec := { pod.Spec with
          Containers :=
            { c with VolumeMounts := c.VolumeMounts ++ ms.filter fun m => keepName m.Name }
              :: cs } } := by
  induction ms generalizing pod c with
  | nil =>
    obtain ⟨m, ⟨ns, rp, cont, vols⟩, st⟩ := pod
    simp only at h
    subst h
    simp
  | cons m ms ih =>
    rw [List.foldl_cons]
    by_cases hk : keepName m.Name = true
    · rw [ih (addVolumeMount pod m) { c with VolumeMounts := c.VolumeMounts ++ [m] } ]
      · simp [addVolumeMount, hk, List.filter_cons]
      · simp [addVolumeMount, hk, h, List.modifyHead]
    · rw [ih (addVolumeMount pod m) c]
      · simp [addVolumeMount, hk, List.filter_cons]
      · simp [addVolumeMount, hk, h]

theorem foldl_addVolume (vs : List (Volume ν)) (pod : Pod μ ν ε) :
    vs.foldl addVolume pod =
      { pod with
        Spec := { pod.Spec with
          Volumes := pod.Spec.Volumes ++ vs.filter fun v => keepName v.Name } } := by
  induction vs generalizing pod with
  | nil => simp
  | cons v vs ih =>
    rw [List.foldl_cons, ih]
    by_cases hk : keepName v.Name = true <;> simp [addVolume, hk, List.filter_cons]

/-- Closed form of `generatePod` on a reference pod with a first container. -/
theorem generatePod_eq (currentPod : Pod μ ν ε) (cwd : String) (args : List String)
    (c0 : Container μ ε) (cs : List (Container μ ε))
    (h : currentPod.Spec.Containers = c0 :: cs) :
    generatePod currentPod cwd args = .ok
      { Meta :=
          { Name := ""
            GenerateName := currentPod.Meta.Labels.index "app" ++ "-transcoder-"
            Namespace := ""
            Labels := [] }
        Spec :=
          { NodeSelector := [("beta.kubernetes.io/arch", "amd64")]
            RestartPolicy := "Never"
            Containers :=
              [{ Name := "plex"
                 Command := args
                 Image := c0.Image
                 Env := c0.Env
                 WorkingDir := cwd
                 VolumeMounts := c0.VolumeMounts.filter fun m => keepName m.Name }]
            Volumes := currentPod.Spec.Volumes.filter fun v => keepName v.Name }
        Status := { Phase := "" } } := by
  unfold generatePod
  rw [h]
  simp only
  rw [foldl_addVolume, foldl_addVolumeMount _ _ _ [] rfl]
  simp [podLiteral, RestartPolicyNever]

/-- The pod that `generatePod` builds carries no name and no namespace. -/
theorem generatePod_name (currentPod pod : Pod μ ν ε) (cwd : String) (args : List String)
    (h : generatePod currentPod cwd args = .ok pod) :
    pod.Meta.Name = "" ∧ pod.Meta.Namespace = "" := by
  cases hc : currentPod.Spec.Containers with
  | nil => simp [generatePod, hc] at h
  | cons c0 cs =>
    rw [generatePod_eq currentPod cwd args c0 cs hc] at h
    cases h
    exact ⟨rfl, rfl⟩

end GeneratePodLemmas

/-! ## Claims on `generatePod` -/

section GeneratePodClaims
variable {μ ν ε : Type}

/-- C1: for a reference pod with at least one container, `generatePod` returns
a pod whose only container has exactly the first reference container's volume
mounts without those named `shared` or starting with `kube`, and whose volumes
are the reference pod's volumes filtered the same way, the kept entries being
unchanged and in their original order. -/
theorem C1_generatePod_filters_mounts_and_volumes (currentPod : Pod μ ν ε) (cwd : String)
    (args : List String) (c0 : Container μ ε) (cs : List (Container μ ε))
    (h : currentPod.Spec.Containers = c0 :: cs) :
    ∃ pod c, generatePod currentPod cwd args = .ok pod ∧ pod.Spec.Containers = [c] ∧
      c.VolumeMounts =
        c0.VolumeMounts.filter (fun m => !(m.Name == "shared" || HasPrefix m.Name "kube")) ∧
      pod.Spec.Volumes =
        currentPod.Spec.Volumes.filter
          (fun v => !(v.Name == "shared" || HasPrefix v.Name "kube")) := by
  refine ⟨_, _, generatePod_eq currentPod cwd args c0 cs h, rfl, ?_, ?_⟩
  · apply List.filter_congr
    intro m _
    simp [keepName, bne]
  · apply List.filter_congr
    intro v _
    simp [keepName, bne]

/-- C1 at the scenario: reference volumes `[shared, kube-api-access-xyz, data]`
give derived volumes `[data]`, and likewise for the mounts. -/
theorem C1_scenario_shared_kube_data :
    ∃ pod c, generatePod sampleRef "/transcode" sampleArgs = .ok pod ∧
      pod.Spec.Containers = [c] ∧ c.VolumeMounts = [⟨"data", "/data"⟩] ∧
      pod.Spec.Volumes = [⟨"data", "pvc"⟩] := by
  obtain ⟨pod, c, h1, h2, h3, h4⟩ :=
    C1_generatePod_filters_mounts_and_volumes sampleRef "/transcode" sampleArgs _ _ rfl
  exact ⟨pod, c, h1, h2, h3.trans (by decide), h4.trans (by decide)⟩

/-- C7: apart from mounts and volumes, the pod built by `generatePod` has the
generate-name `<app label>-transcoder-` (empty label when missing), restart
policy `Never`, the node selector `beta.kubernetes.io/arch = amd64`, and one
container named `plex` with command `args`, the image and environment of the
reference's first container and working directory `cwd`; nothing else is set. -/
theorem C7_generatePod_fixed_fields (currentPod : Pod μ ν ε) (cwd : String)
    (args : List String) (c0 : Container μ ε) (cs : List (Container μ ε))
    (h : currentPod.Spec.Containers = c0 :: cs) :
    ∃ pod c, generatePod currentPod cwd args = .ok pod ∧
      pod.Meta.GenerateName = (currentPod.Meta.Labels.lookup "app").getD "" ++ "-transcoder-" ∧
      pod.Meta.Name = "" ∧ pod.Meta.Namespace = "" ∧ pod.Meta.Labels = [] ∧
      pod.Status.Phase = "" ∧
      pod.Spec.RestartPolicy = "Never" ∧
      pod.Spec.NodeSelector = [("beta.kubernetes.io/arch", "amd64")] ∧
      pod.Spec.Containers = [c] ∧
      c.Name = "plex" ∧ c.Command = args ∧ c.Image = c0.Image ∧ c.Env = c0.Env ∧
      c.WorkingDir = cwd :=
  ⟨_, _, generatePod_eq currentPod cwd args c0 cs h, rfl, rfl, rfl, rfl, rfl, rfl, rfl, rfl,
    rfl, rfl, rfl, rfl, rfl⟩

/-- C7 at the sample reference pod. -/
theorem C7_sample_fields :
    ∃ pod c, generatePod sampleRef "/transcode" sampleArgs = .ok pod ∧
      pod.Meta.GenerateName = "plex-transcoder-" ∧
      pod.Spec.RestartPolicy = "Never" ∧
      pod.Spec.NodeSelector = [("beta.kubernetes.io/arch", "amd64")] ∧
      pod.Spec.Containers = [c] ∧ c.Command = sampleArgs ∧
      c.Image = "plexinc/pms-docker:latest" ∧ c.Env = ["TZ=UTC", "PLEX_CLAIM=claim-x"] ∧
      c.WorkingDir = "/transcode" := by
  obtain ⟨pod, c, h1, h2, _, _, _, _, h3, h4, h5, _, h6, h7, h8, h9⟩ :=
    C7_generatePod_fixed_fields sampleRef "/transcode" sampleArgs _ _ rfl
  exact ⟨pod, c, h1, h2.trans (by decide), h3, h4, h5, h6, h7, h8, h9⟩

/-- C9: when every volume mount of the reference's first container names a
volume of the reference pod, every volume mount of the derived pod's container
names a volume of the derived pod. -/
theorem C9_generatePod_mounts_have_volumes (currentPod : Pod μ ν ε) (cwd : String)
    (args : List String) (c0 : Container μ ε) (cs : List (Container μ ε))
    (h : currentPod.Spec.Containers = c0 :: cs)
    (hcons : ∀ m ∈ c0.VolumeMounts, ∃ v ∈ currentPod.Spec.Volumes, v.Name = m.Name) :
    ∃ pod, generatePod currentPod cwd args = .ok pod ∧
      ∀ c ∈ pod.Spec.Containers, ∀ m ∈ c.VolumeMounts,
        ∃ v ∈ pod.Spec.Volumes, v.Name = m.Name := by
  refine ⟨_, generatePod_eq currentPod cwd args c0 cs h, ?_⟩
  intro c hc m hm
  simp only [List.mem_singleton] at hc
  subst hc
  simp only [List.mem_filter] at hm ⊢
  obtain ⟨v, hv, hname⟩ := hcons m hm.1
  exact ⟨v, ⟨hv, by rw [hname]; exact hm.2⟩, hname⟩

/-- C9 at the sample reference pod, whose three mounts all name a volume. -/
theorem C9_sample_consistent :
    (∀ m ∈ (sampleRef.Spec.Containers.headD ⟨"", [], "", [], "", []⟩).VolumeMounts,
      ∃ v ∈ sampleRef.Spec.Volumes, v.Name = m.Name) ∧
    ∃ pod, generatePod sampleRef "/transcode" sampleArgs = .ok pod ∧
      ∀ c ∈ pod.Spec.Containers, ∀ m ∈ c.VolumeMounts,
        ∃ v ∈ pod.Spec.Volumes, v.Name = m.Name :=
  have hc : ∀ m ∈ (sampleRef.Spec.Containers.headD ⟨"", [], "", [], "", []⟩).VolumeMounts,
      ∃ v ∈ sampleRef.Spec.Volumes, v.Name = m.Name := by decide
  ⟨hc, C9_generatePod_mounts_have_volumes sampleRef "/transcode" sampleArgs _ _ rfl hc⟩

end GeneratePodClaims

/-! ## Lemmas on `rewriteArgs` -/

theorem isFlag_iff_mem (v : String) : isFlag v = true ↔ v ∈ flags := by
  simp [isFlag, isUrlFlag, isLogFlag, flags, or_assoc]

theorem isFlag_false_iff (v : String) : isFlag v = false ↔ v ∉ flags := by
  rw [← isFlag_iff_mem]; simp

theorem rewriteNext_of_not_flag (addr v x : String) (h : isFlag v = false) :
    rewriteNext addr v x = x := by
  simp only [isFlag, Bool.or_eq_false_iff] at h
  simp [rewriteNext, h.1, h.2]

theorem rewriteArgsLoop_eq (addr : String) (rest : List String) :
    ∀ (pre : List String) (v : String),
      rewriteArgsLoop addr (rest.length + 1) pre.length (pre ++ v :: rest) =
        (rewriteTail addr (pre.length + 1 + rest.length) v rest).map (pre ++ ·) := by
  induction rest with
  | nil =>
    intro pre v
    have hget : (pre ++ [v])[pre.length]? = some v := by simp
    have hnone : (pre ++ [v])[pre.length + 1]? = none := by simp
    have hlen : (pre ++ [v]).length = pre.length + 1 := by simp
    simp only [List.length_nil, Nat.zero_add, Nat.add_zero, rewriteArgsLoop, rewriteTail,
      isFlag, hget, hnone, hlen, Nat.lt_irrefl, if_false]
    by_cases hu : isUrlFlag v = true
    · simp [hu, Except.map]
    · by_cases hl : isLogFlag v = true
      · simp [hu, hl, Except.map]
      · simp [hu, hl, Except.map]
  | cons x rest ih =>
    intro pre v
    have hsplit : pre ++ v :: x :: rest = (pre ++ [v]) ++ x :: rest := by simp
    have hlen : pre.length + 1 = (pre ++ [v]).length := by simp
    have hget : (pre ++ v :: x :: rest)[pre.length]? = some v := by
      rw [List.getElem?_append_right (le_refl _), Nat.sub_self]; rfl
    have hget1 : (pre ++ v :: x :: rest)[pre.length + 1]? = some x := by
      rw [List.getElem?_append_right (Nat.le_succ _),
        show pre.length + 1 - pre.length = 1 by omega]
      simp
    have hset : ∀ y : String,
        (pre ++ v :: x :: rest).set (pre.length + 1) y = (pre ++ [v]) ++ y :: rest := by
      intro y
      rw [hsplit, hlen, List.set_append_right _ _ (le_refl _)]
      simp
    have hlt : pre.length + 1 < (pre ++ v :: x :: rest).length := by simp
    have hmap : ∀ r : Except Panic (List String),
        (r.map ((pre ++ [v]) ++ ·)) = (r.map (v :: ·)).map (pre ++ ·) := by
      intro r; cases r <;> simp [Except.map]
    have hih : ∀ y : String,
        rewriteArgsLoop addr (rest.length + 1) (pre.length + 1) ((pre ++ [v]) ++ y :: rest) =
          ((rewriteTail addr (pre.length + 1 + (rest.length + 1)) y rest).map (v :: ·)).map
            (pre ++ ·) := by
      intro y
      have h := ih (pre ++ [v]) y
      rw [← hlen] at h
      rw [h, hmap, Nat.add_assoc (pre.length + 1) 1, Nat.add_comm 1]
    rw [List.length_cons, rewriteArgsLoop]
    simp only [hget, hget1, hset, hlt, if_true, rewriteTail, rewriteNext]
    by_cases hu : isUrlFlag v = true
    · simp only [hu, if_true, hih]
    · by_cases hl : isLogFlag v = true
      · simp only [hu, hl, if_true, Bool.false_eq_true, if_false, hih]
      · simp only [hu, hl, Bool.false_eq_true, if_false]
        rw [hsplit, hih]

/-- Function `rewriteArgs` on a non-empty slice, through `rewriteTail`. -/
theorem rewriteArgs_cons (addr v : String) (rest : List String) :
    rewriteArgs addr (v :: rest) = rewriteTail addr (rest.length + 1) v rest := by
  have h := rewriteArgsLoop_eq addr rest [] v
  simp only [List.length_nil, List.nil_append, Nat.zero_add] at h
  unfold rewriteArgs
  rw [List.length_cons, h, Nat.add_comm 1]
  cases rewriteTail addr (rest.length + 1) v rest <;> simp [Except.map]

theorem rewriteArgs_nil (addr : String) : rewriteArgs addr [] = .ok [] := rfl

theorem rewriteTail_ok (addr : String) (len : Nat) (rest : List String) :
    ∀ (v : String) (out : List String), rewriteTail addr len v rest = .ok out →
      out.length = rest.length + 1 ∧ out[0]? = some v ∧
      ∀ i x, rest[i]? = some x →
        ∃ u, out[i]? = some u ∧ out[i + 1]? = some (rewriteNext addr u x) := by
  induction rest with
  | nil =>
    intro v out h
    by_cases hf : isFlag v = true
    · simp [rewriteTail, hf] at h
    · simp only [rewriteTail, hf, Bool.false_eq_true, if_false, Except.ok.injEq] at h
      subst h
      simp
  | cons x rest ih =>
    intro v out h
    simp only [rewriteTail] at h
    cases hr : rewriteTail addr len (rewriteNext addr v x) rest with
    | error e => simp [hr, Except.map] at h
    | ok out1 =>
      simp only [hr, Except.map, Except.ok.injEq] at h
      subst h
      obtain ⟨h1, h2, h3⟩ := ih _ _ hr
      refine ⟨by simp [h1], by simp, ?_⟩
      intro i y hy
      cases i with
      | zero =>
        simp only [List.getElem?_cons_zero, Option.some.injEq] at hy
        subst hy
        exact ⟨v, by simp, by simpa using h2⟩
      | succ i =>
        simp only [List.getElem?_cons_succ] at hy
        obtain ⟨u, hu1, hu2⟩ := h3 i y hy
        exact ⟨u, by simpa using hu1, by simpa using hu2⟩

theorem rewriteTail_total (addr : String) (len : Nat) (rest : List String) :
    ∀ v : String, (rest = [] → isFlag v = false) →
      (∀ l, rest.getLast? = some l →
        isFlag l = false ∧ isFlag (Replace1 l placeholder addr) = false) →
      ∃ out, rewriteTail addr len v rest = .ok out := by
  induction rest with
  | nil =>
    intro v hv _
    exact ⟨[v], by simp [rewriteTail, hv rfl]⟩
  | cons x rest ih =>
    intro v _ hl
    have hnext : rest = [] → isFlag (rewriteNext addr v x) = false := by
      intro hr
      subst hr
      have hx := hl x (by simp)
      unfold rewriteNext
      split
      · exact hx.2
      · split
        · decide
        · exact hx.1
    have hl2 : ∀ l, rest.getLast? = some l →
        isFlag l = false ∧ isFlag (Replace1 l placeholder addr) = false := by
      intro l hlast
      apply hl
      cases rest with
      | nil => simp at hlast
      | cons y r => simpa [List.getLast?_cons_cons] using hlast
    obtain ⟨out, hout⟩ := ih (rewriteNext addr v x) hnext hl2
    exact ⟨v :: out, by simp [rewriteTail, hout, Except.map]⟩

theorem rewriteTail_no_flags (addr : String) (len : Nat) (mid : List String) (f : String) :
    ∀ v : String, isFlag v = false → (∀ a ∈ mid, isFlag a = false) →
      rewriteTail addr len v (mid ++ [f]) =
        if isFlag f then .error (.indexOutOfRange len len) else .ok (v :: mid ++ [f]) := by
  induction mid with
  | nil =>
    intro v hv _
    simp only [List.nil_append, rewriteTail, rewriteNext_of_not_flag addr v f hv]
    by_cases hf : isFlag f = true <;> simp [hf, Except.map]
  | cons x mid ih =>
    intro v hv hmid
    have hx : isFlag x = false := hmid x (by simp)
    simp only [List.cons_append, rewriteTail, rewriteNext_of_not_flag addr v x hv,
      List.append_eq]
    rw [ih x hx (fun a ha => hmid a (by simp [ha]))]
    by_cases hf : isFlag f = true <;> simp [hf, Except.map]

/-! ## Claims on `rewriteArgs` -/

/-- C8, as amended: when the last argument is not a flag and does not become
one by the replacement of the placeholder, `rewriteArgs` returns a vector of
the same length with the same first argument, in which every later argument is
decided by the argument before it as it stands AFTER the rewriting (the value
the loop reads there): after a URL flag the original argument with its first
placeholder replaced by the internal address, after a log-level flag `debug`,
and the original argument otherwise. -/
theorem C8_rewriteArgs_follows_rewritten_flags (addr : String) (args : List String)
    (hlast : ∀ l, args.getLast? = some l →
      l ∉ flags ∧ Replace1 l "http://127.0.0.1:32400" addr ∉ flags) :
    ∃ out, rewriteArgs addr args = .ok out ∧ out.length = args.length ∧
      out[0]? = args[0]? ∧
      ∀ i x, args[i + 1]? = some x → ∃ v, out[i]? = some v ∧
        (v ∈ ["-progressurl", "-manifest_name", "-segment_list"] →
          out[i + 1]? = some (Replace1 x "http://127.0.0.1:32400" addr)) ∧
        (v ∈ ["-loglevel", "-loglevel_plex"] → out[i + 1]? = some "debug") ∧
        (v ∉ flags → out[i + 1]? = some x) := by
  cases args with
  | nil => exact ⟨[], rfl, rfl, rfl, by simp⟩
  | cons a rest =>
    have hinv1 : rest = [] → isFlag a = false := by
      intro hr
      subst hr
      exact (isFlag_false_iff a).2 (hlast a (by simp)).1
    have hinv2 : ∀ l, rest.getLast? = some l →
        isFlag l = false ∧ isFlag (Replace1 l placeholder addr) = false := by
      intro l hl
      have h := hlast l (by
        cases rest with
        | nil => simp at hl
        | cons y r => simpa [List.getLast?_cons_cons] using hl)
      exact ⟨(isFlag_false_iff _).2 h.1, (isFlag_false_iff _).2 h.2⟩
    obtain ⟨out, hout⟩ := rewriteTail_total addr (rest.length + 1) rest a hinv1 hinv2
    obtain ⟨h1, h2, h3⟩ := rewriteTail_ok addr _ rest a out hout
    refine ⟨out, by rw [rewriteArgs_cons, hout], by simp [h1], by simp [h2], ?_⟩
    intro i x hx
    simp only [List.getElem?_cons_succ] at hx
    obtain ⟨u, hu1, hu2⟩ := h3 i x hx
    refine ⟨u, hu1, ?_, ?_, ?_⟩
    · intro hmem
      have : isUrlFlag u = true := by
        simpa [isUrlFlag, or_assoc] using hmem
      simpa [rewriteNext, this, placeholder] using hu2
    · intro hmem
      have hlog : isLogFlag u = true := by
        simpa [isLogFlag] using hmem
      have hurl : isUrlFlag u = false := by
        simp only [List.mem_cons, List.mem_singleton, List.not_mem_nil, or_false] at hmem
        rcases hmem with h | h <;> subst h <;> decide
      simpa [rewriteNext, hlog, hurl] using hu2
    · intro hmem
      rw [rewriteNext_of_not_flag addr u x ((isFlag_false_iff u).2 hmem)] at hu2
      exact hu2

/-- C8 at a sample vector: the hypothesis on the last argument holds there
and the rewriting obeys the rule. -/
theorem C8_sample_rewrite :
    (∀ l, sampleFlagArgs.getLast? = some l →
      l ∉ flags ∧ Replace1 l "http://127.0.0.1:32400" "http://plex:32400" ∉ flags) ∧
    ∃ out, rewriteArgs "http://plex:32400" sampleFlagArgs = .ok out ∧
      out.length = sampleFlagArgs.length ∧ out[0]? = sampleFlagArgs[0]? ∧
      ∀ i x, sampleFlagArgs[i + 1]? = some x → ∃ v, out[i]? = some v ∧
        (v ∈ ["-progressurl", "-manifest_name", "-segment_list"] →
          out[i + 1]? = some (Replace1 x "http://127.0.0.1:32400" "http://plex:32400")) ∧
        (v ∈ ["-loglevel", "-loglevel_plex"] → out[i + 1]? = some "debug") ∧
        (v ∉ flags → out[i + 1]? = some x) :=
  have hlast : ∀ l, sampleFlagArgs.getLast? = some l →
      l ∉ flags ∧ Replace1 l "http://127.0.0.1:32400" "http://plex:32400" ∉ flags := by
    intro l hl
    have : l = "out.mpd" := by
      simpa [sampleFlagArgs, eq_comm] using hl
    subst this
    decide
  ⟨hlast, C8_rewriteArgs_follows_rewritten_flags "http://plex:32400" sampleFlagArgs hlast⟩

/-- C8 as stated fails: in `["-loglevel", "-progressurl", "http://127.0.0.1:32400/x"]`
every flag is followed by another element and position 1 holds `-progressurl`,
yet position 2 is left as it was, because the loop overwrote position 1 with
`debug` before reading it.  Moreover, with an empty internal address the vector
`["-progressurl", "-loglevelhttp://127.0.0.1:32400"]`, whose only flag is
followed by another element, makes the call panic: the replacement turns the
last element into a flag. -/
theorem C8_counterexample_flag_overwritten :
    (∀ i v, flagAsValueArgs[i]? = some v → v ∈ flags → i + 1 < flagAsValueArgs.length) ∧
    flagAsValueArgs[1]? = some "-progressurl" ∧
    flagAsValueArgs[2]? = some "http://127.0.0.1:32400/x" ∧
    rewriteArgs "http://plex:32400" flagAsValueArgs =
      .ok ["-loglevel", "debug", "http://127.0.0.1:32400/x"] ∧
    (["-loglevel", "debug", "http://127.0.0.1:32400/x"] : List String)[2]? ≠
      some (Replace1 "http://127.0.0.1:32400/x" "http://127.0.0.1:32400" "http://plex:32400") ∧
    "-loglevelhttp://127.0.0.1:32400" ∉ flags ∧
    rewriteArgs "" ["-progressurl", "-loglevelhttp://127.0.0.1:32400"] =
      .error (.indexOutOfRange 2 2) := by
  refine ⟨?_, by decide, by decide, by decide, by decide, by decide, by decide⟩
  intro i v hv hmem
  match i, hv with
  | 0, _ => decide
  | 1, _ => decide
  | 2, hv =>
    simp only [flagAsValueArgs, List.getElem?_cons_succ, List.getElem?_cons_zero,
      Option.some.injEq] at hv
    subst hv
    exact absurd hmem (by decide)
  | n + 3, hv => simp [flagAsValueArgs] at hv

theorem rewriteArgs_concat (addr : String) (pre : List String) (f : String)
    (hpre : ∀ a ∈ pre, isFlag a = false) :
    rewriteArgs addr (pre ++ [f]) =
      if isFlag f then .error (.indexOutOfRange (pre.length + 1) (pre.length + 1))
      else .ok (pre ++ [f]) := by
  cases pre with
  | nil =>
    rw [List.nil_append, rewriteArgs_cons]
    simp [rewriteTail]
  | cons v mid =>
    rw [List.cons_append, rewriteArgs_cons,
      rewriteTail_no_flags addr _ mid f v (hpre v (by simp)) (fun a ha => hpre a (by simp [ha]))]
    simp

/-- C10: a vector whose last element is one of the five flags and that has no
flag elsewhere makes `rewriteArgs` panic with an index-out-of-range access at
the position equal to the length; a vector with none of the five flags is
returned unchanged. -/
theorem C10_rewriteArgs_panics_on_trailing_flag (addr : String) (pre : List String)
    (hpre : ∀ a ∈ pre,
      a ∉ ["-progressurl", "-manifest_name", "-segment_list", "-loglevel", "-loglevel_plex"]) :
    (∀ f ∈ ["-progressurl", "-manifest_name", "-segment_list", "-loglevel", "-loglevel_plex"],
      rewriteArgs addr (pre ++ [f]) =
        .error (.indexOutOfRange (pre ++ [f]).length (pre ++ [f]).length)) ∧
    rewriteArgs addr pre = .ok pre := by
  have hpre2 : ∀ a ∈ pre, isFlag a = false := fun a ha => (isFlag_false_iff a).2 (hpre a ha)
  constructor
  · intro f hf
    have hflag : isFlag f = true := (isFlag_iff_mem f).2 hf
    rw [rewriteArgs_concat addr pre f hpre2]
    simp [hflag]
  · rcases List.eq_nil_or_concat pre with h | ⟨mid, l, h⟩
    · subst h; rfl
    · rw [List.concat_eq_append] at h
      subst h
      rw [rewriteArgs_concat addr mid l (fun a ha => hpre2 a (by simp [ha]))]
      simp [hpre2 l (by simp)]

/-- C10 at a sample vector: `sampleArgs` has no flag, `sampleArgs ++ ["-loglevel"]`
panics at index 4 of 4, and `sampleArgs` itself comes back unchanged. -/
theorem C10_sample_trailing_loglevel :
    rewriteArgs "http://plex:32400" (sampleArgs ++ ["-loglevel"]) =
      .error (.indexOutOfRange 4 4) ∧
    rewriteArgs "http://plex:32400" sampleArgs = .ok sampleArgs :=
  have h := C10_rewriteArgs_panics_on_trailing_flag "http://plex:32400" sampleArgs (by decide)
  ⟨h.1 "-loglevel" (by decide), h.2⟩

/-! ## Lemmas on `waitForPodCompletion` -/

section WaitLemmas
variable {μ ν ε : Type}

/-- A poll that receives a non-terminal answer is followed by the next poll. -/
theorem waitForPodCompletion_cons_continue (a : Except String (Pod μ ν ε))
    (rest : List (Except String (Pod μ ν ε))) (pod : Pod μ ν ε) (h : isTerminal a = false) :
    waitForPodCompletion (a :: rest) pod =
      (.Get pod.Meta.Namespace pod.Meta.Name :: (waitForPodCompletion rest pod).1,
        (waitForPodCompletion rest pod).2) := by
  cases a with
  | error e => simp [isTerminal] at h
  | ok fetched =>
    simp only [isTerminal, Bool.or_eq_false_iff, beq_eq_false_iff_ne, ne_eq] at h
    simp only [waitForPodCompletion, PodFailed, PodSucceeded, h.1, h.2, if_false]
    split
    · rfl
    · split
      · rfl
      · split <;> rfl

/-- The value returned on a terminal answer. -/
theorem waitForPodCompletion_cons_terminal (a : Except String (Pod μ ν ε))
    (rest : List (Except String (Pod μ ν ε))) (pod : Pod μ ν ε) (h : isTerminal a = true) :
    ∃ err, waitForPodCompletion (a :: rest) pod =
        ([.Get pod.Meta.Namespace pod.Meta.Name], .returned err) ∧
      (err = none ↔ ∃ fetched, a = .ok fetched ∧ fetched.Status.Phase = "Succeeded") := by
  cases a with
  | error e => exact ⟨some (.fetch e), rfl, by simp⟩
  | ok fetched =>
    simp only [isTerminal, Bool.or_eq_true, beq_iff_eq] at h
    rcases h with h | h
    · refine ⟨some (.podFailed fetched.Meta.Name), ?_, ?_⟩
      · simp [waitForPodCompletion, h, PodPending, PodRunning, PodUnknown, PodFailed]
      · simp [h]
    · refine ⟨none, ?_, ?_⟩
      · simp [waitForPodCompletion, h, PodPending, PodRunning, PodUnknown, PodFailed,
          PodSucceeded]
      · simp [h]

theorem waitForPodCompletion_append (pre rest : List (Except String (Pod μ ν ε)))
    (pod : Pod μ ν ε) (hpre : ∀ a ∈ pre, isTerminal a = false) :
    waitForPodCompletion (pre ++ rest) pod =
      (List.replicate pre.length (.Get pod.Meta.Namespace pod.Meta.Name) ++
          (waitForPodCompletion rest pod).1,
        (waitForPodCompletion rest pod).2) := by
  induction pre with
  | nil => simp
  | cons a pre ih =>
    rw [List.cons_append, waitForPodCompletion_cons_continue a _ pod (hpre a (by simp)),
      ih (fun b hb => hpre b (by simp [hb]))]
    simp [List.replicate_succ]

/-- Every call of the waiter is a fetch addressed with the fields of its argument. -/
theorem waitForPodCompletion_calls (cl : List (Except String (Pod μ ν ε))) (pod : Pod μ ν ε) :
    ∀ e ∈ (waitForPodCompletion cl pod).1, e = .Get pod.Meta.Namespace pod.Meta.Name := by
  induction cl with
  | nil => simp [waitForPodCompletion]
  | cons a rest ih =>
    by_cases h : isTerminal a = true
    · obtain ⟨err, he, _⟩ := waitForPodCompletion_cons_terminal a rest pod h
      rw [he]
      simp
    · rw [waitForPodCompletion_cons_continue a rest pod (by simpa using h)]
      intro e he
      simp only [List.mem_cons] at he
      rcases he with he | he
      · exact he
      · exact ih e he

end WaitLemmas

/-! ## Claims on `waitForPodCompletion` -/

section WaitClaims
variable {μ ν ε : Type}

/-- C5: the wait passes over every answer that is not terminal, in particular
every answer in phase `Pending`, `Running` or `Unknown`; it ends at the first
answer that is a fetch error, phase `Failed` or phase `Succeeded`, after
exactly that many fetches, and returns nil exactly when that answer is phase
`Succeeded`. -/
theorem C5_wait_ends_at_first_terminal_answer (pod : Pod μ ν ε)
    (pre post : List (Except String (Pod μ ν ε))) (a : Except String (Pod μ ν ε))
    (hpre : ∀ b ∈ pre, isTerminal b = false) (ha : isTerminal a = true) :
    waitForPodCompletion pre pod =
      (List.replicate pre.length (.Get pod.Meta.Namespace pod.Meta.Name), .polling) ∧
    (∃ err, waitForPodCompletion (pre ++ a :: post) pod =
        (List.replicate (pre.length + 1) (.Get pod.Meta.Namespace pod.Meta.Name),
          .returned err) ∧
      (err = none ↔ ∃ fetched, a = .ok fetched ∧ fetched.Status.Phase = "Succeeded")) ∧
    (∀ cl : List (Except String (Pod μ ν ε)),
      (∀ b ∈ cl, ∃ fetched, b = .ok fetched ∧
        fetched.Status.Phase ∈ ["Pending", "Running", "Unknown"]) →
      waitForPodCompletion cl pod =
        (List.replicate cl.length (.Get pod.Meta.Namespace pod.Meta.Name), .polling)) := by
  have hpoll : ∀ cl : List (Except String (Pod μ ν ε)), (∀ b ∈ cl, isTerminal b = false) →
      waitForPodCompletion cl pod =
        (List.replicate cl.length (.Get pod.Meta.Namespace pod.Meta.Name), .polling) := by
    intro cl hcl
    have h := waitForPodCompletion_append cl [] pod hcl
    simpa [waitForPodCompletion] using h
  refine ⟨hpoll pre hpre, ?_, ?_⟩
  · obtain ⟨err, he, hiff⟩ := waitForPodCompletion_cons_terminal a post pod ha
    refine ⟨err, ?_, hiff⟩
    rw [waitForPodCompletion_append pre _ pod hpre, he]
    simp [List.replicate_succ']
  · intro cl hcl
    apply hpoll
    intro b hb
    obtain ⟨fetched, rfl, hph⟩ := hcl b hb
    simp only [List.mem_cons, List.mem_singleton, List.not_mem_nil, or_false] at hph
    rcases hph with h | h | h <;> simp [isTerminal, h]

/-- C5 at the scenario: the phases `[Pending, Pending, Running, Succeeded]`
give success after exactly 4 polls. -/
theorem C5_scenario_four_polls :
    waitForPodCompletion
        [statusAnswer "Pending", statusAnswer "Pending", statusAnswer "Running",
         statusAnswer "Succeeded"] samplePod =
      ([.Get "" "", .Get "" "", .Get "" "", .Get "" ""], .returned none) := by
  obtain ⟨_, ⟨err, he, hiff⟩, _⟩ :=
    C5_wait_ends_at_first_terminal_answer samplePod
      [statusAnswer "Pending", statusAnswer "Pending", statusAnswer "Running"] []
      (statusAnswer "Succeeded") (by decide) (by decide)
  have hnone : err = none := hiff.2 ⟨_, rfl, rfl⟩
  subst hnone
  exact he

end WaitClaims

/-! ## Lemmas on `main` -/

section MainLemmas
variable {μ ν ε : Type}

theorem restGet_ok (name : String) (answer : Except String (Pod μ ν ε)) (p : Pod μ ν ε)
    (h : restGet name answer = .ok p) : answer = .ok p := by
  unfold restGet at h
  split at h
  · cases h
  · exact h

theorem selectWait_calls (wr : List (Event μ ν ε) × WaitResult) (stop : Option Nat) :
    ∀ e ∈ (selectWait wr stop).1, e ∈ wr.1 := by
  intro e he
  unfold selectWait at he
  split at he
  · split at he
    · exact List.mem_of_mem_take he
    · exact he
  · exact List.mem_of_mem_take he
  · exact he
  · exact he

/-- Shape of the run from line 55 on: the handler is registered, the waiter
fetches with the fields of `pod`, and either the `select` never completes or it
completes and is followed by the delete call, which ends the run. -/
theorem mainAfterCreate_shape (w : World μ ν ε) (pod : Pod μ ν ε) :
    ∃ fetches : List (Event μ ν ε),
      (∀ e ∈ fetches, e = .Get pod.Meta.Namespace pod.Meta.Name) ∧
      (mainAfterCreate w pod = ⟨.SetupSignalHandler :: fetches, .blocked⟩ ∨
        ∃ c en, en ≠ .blocked ∧ en ≠ .killed ∧
          mainAfterCreate w pod =
            ⟨.SetupSignalHandler :: fetches ++
              [.Select c, .Delete w.kubeNamespace pod.Meta.Name], en⟩) := by
  refine ⟨(selectWait (waitForPodCompletion (restGets pod.Meta.Name w.statusFetches) pod)
    (stopAfter w.signal)).1, ?_, ?_⟩
  · intro e he
    exact waitForPodCompletion_calls _ _ e (selectWait_calls _ _ e he)
  · cases hs : (selectWait (waitForPodCompletion (restGets pod.Meta.Name w.statusFetches) pod)
        (stopAfter w.signal)).2 with
    | none =>
      left
      simp only [mainAfterCreate, hs]
    | some c =>
      right
      cases hd : restDelete pod.Meta.Name w.delete with
      | none =>
        exact ⟨c, .returned, by simp, by simp, by simp only [mainAfterCreate, hs, hd]⟩
      | some err =>
        exact ⟨c, .fatal ("Error cleaning up pod: " ++ err), by simp, by simp,
          by simp only [mainAfterCreate, hs, hd]⟩

/-- The ways a run of `main` can go: no call; the fetch of the reference pod
only; a refused create call; a signal between the create call and the
registration of the handler; the run through line 55. -/
theorem main_cases (w : World μ ν ε) :
    (main w).trace = [] ∨
    (main w).trace = [.Get w.kubeNamespace w.currentPodName] ∨
    (∃ currentPod cwd args pod err, w.getCurrentPod = .ok currentPod ∧
      generatePod currentPod cwd args = .ok pod ∧ w.create pod = .error err ∧
      main w = ⟨[.Get w.kubeNamespace w.currentPodName, .Create w.kubeNamespace pod],
        .fatal ("Error creating pod: " ++ err)⟩) ∨
    (∃ currentPod cwd args pod created, w.getCurrentPod = .ok currentPod ∧
      generatePod currentPod cwd args = .ok pod ∧ w.create pod = .ok created ∧
      w.signal = some .beforeHandler ∧
      main w = ⟨[.Get w.kubeNamespace w.currentPodName, .Create w.kubeNamespace pod],
        .killed⟩) ∨
    (∃ currentPod cwd args pod created, w.getCurrentPod = .ok currentPod ∧
      generatePod currentPod cwd args = .ok pod ∧ w.create pod = .ok created ∧
      w.signal ≠ some .beforeHandler ∧
      main w = ⟨.Get w.kubeNamespace w.currentPodName :: .Create w.kubeNamespace pod ::
        (mainAfterCreate w pod).trace, (mainAfterCreate w pod).ending⟩) := by
  cases h1 : rewriteArgs w.pmsInternalAddress w.Args with
  | error p =>
    left
    simp only [main, h1]
  | ok args =>
    cases h2 : w.buildConfig with
    | some err =>
      left
      simp only [main, h1, h2]
    | none =>
      cases h3 : w.newForConfig with
      | some err =>
        left
        simp only [main, h1, h2, h3]
      | none =>
        cases h4 : w.getwd with
        | error err =>
          left
          simp only [main, h1, h2, h3, h4]
        | ok cwd =>
          by_cases s1 : w.signal = some .beforeGet
          · left
            simp only [main, h1, h2, h3, h4, if_pos s1]
          · cases h5 : restGet w.currentPodName w.getCurrentPod with
            | error err =>
              right; left
              simp only [main, h1, h2, h3, h4, if_neg s1, h5]
            | ok currentPod =>
              have hcp := restGet_ok _ _ _ h5
              cases h6 : generatePod currentPod cwd args with
              | error p =>
                right; left
                simp only [main, h1, h2, h3, h4, if_neg s1, h5, h6]
              | ok pod =>
                by_cases s2 : w.signal = some .beforeCreate
                · right; left
                  simp only [main, h1, h2, h3, h4, if_neg s1, h5, h6, if_pos s2]
                · cases h7 : w.create pod with
                  | error err =>
                    refine Or.inr (Or.inr (Or.inl
                      ⟨currentPod, cwd, args, pod, err, hcp, h6, h7, ?_⟩))
                    simp only [main, h1, h2, h3, h4, if_neg s1, h5, h6, if_neg s2, h7]
                  | ok created =>
                    by_cases s3 : w.signal = some .beforeHandler
                    · refine Or.inr (Or.inr (Or.inr (Or.inl
                        ⟨currentPod, cwd, args, pod, created, hcp, h6, h7, s3, ?_⟩)))
                      simp only [main, h1, h2, h3, h4, if_neg s1, h5, h6, if_neg s2, h7,
                        if_pos s3]
                    · refine Or.inr (Or.inr (Or.inr (Or.inr
                        ⟨currentPod, cwd, args, pod, created, hcp, h6, h7, s3, ?_⟩)))
                      simp only [main, h1, h2, h3, h4, if_neg s1, h5, h6, if_neg s2, h7,
                        if_neg s3]

/-- No event of the run from line 55 on is a create call. -/
theorem mainAfterCreate_no_create (w : World μ ν ε) (pod : Pod μ ν ε) :
    ∀ e ∈ (mainAfterCreate w pod).trace, e.isCreate = false := by
  obtain ⟨fetches, hf, h | ⟨c, en, _, _, h⟩⟩ := mainAfterCreate_shape w pod
  · rw [h]
    intro e he
    simp only [List.mem_cons] at he
    rcases he with rfl | he
    · rfl
    · rw [hf e he]; rfl
  · rw [h]
    intro e he
    simp only [List.mem_cons, List.mem_append, List.mem_singleton, List.not_mem_nil,
      or_false] at he
    rcases he with (rfl | he) | rfl | rfl
    · rfl
    · rw [hf e he]; rfl
    · rfl
    · rfl

/-- A run in which a create call was made and answered with success: the pod
sent is the pod of `generatePod`, which has the empty name and namespace, and
either a signal ends the run there, before the handler is registered, or the
run goes on with line 55. -/
theorem main_of_create_ok (w : World μ ν ε) (ns : String) (pod created : Pod μ ν ε)
    (hcreate : Event.Create ns pod ∈ (main w).trace) (hok : w.create pod = .ok created) :
    ns = w.kubeNamespace ∧ pod.Meta.Name = "" ∧ pod.Meta.Namespace = "" ∧
    ((w.signal = some .beforeHandler ∧
        main w = ⟨[.Get w.kubeNamespace w.currentPodName, .Create w.kubeNamespace pod],
          .killed⟩) ∨
      (w.signal ≠ some .beforeHandler ∧
        main w = ⟨.Get w.kubeNamespace w.currentPodName :: .Create w.kubeNamespace pod ::
          (mainAfterCreate w pod).trace, (mainAfterCreate w pod).ending⟩)) := by
  rcases main_cases w with h | h | ⟨cp, cwd, args, pod1, err, _, _, hc, h⟩ |
      ⟨cp, cwd, args, pod1, cr, _, hg, hc, hs, h⟩ | ⟨cp, cwd, args, pod1, cr, _, hg, hc, hs, h⟩
  · rw [h] at hcreate; simp at hcreate
  · rw [h] at hcreate; simp at hcreate
  · rw [h] at hcreate
    simp only [List.mem_cons, List.mem_singleton, List.not_mem_nil, or_false, false_or,
      Event.Create.injEq, reduceCtorEq] at hcreate
    obtain ⟨_, hp⟩ := hcreate
    subst hp
    rw [hok] at hc
    cases hc
  · have hmem := hcreate
    rw [h] at hmem
    simp only [List.mem_cons, List.mem_singleton, List.not_mem_nil, or_false, false_or,
      Event.Create.injEq, reduceCtorEq] at hmem
    obtain ⟨hns, hp⟩ := hmem
    subst hp
    exact ⟨hns, (generatePod_name cp pod cwd args hg).1,
      (generatePod_name cp pod cwd args hg).2, Or.inl ⟨hs, h⟩⟩
  · have hmem := hcreate
    rw [h] at hmem
    simp only [List.mem_cons, Event.Create.injEq, reduceCtorEq, false_or] at hmem
    rcases hmem with ⟨hns, hp⟩ | hmem
    · subst hp
      exact ⟨hns, (generatePod_name cp pod cwd args hg).1,
        (generatePod_name cp pod cwd args hg).2, Or.inr ⟨hs, h⟩⟩
    · have := mainAfterCreate_no_create w pod1 _ hmem
      simp [Event.isCreate] at this

/-- Once the handler is registered the clean-up is reached: in a run whose
create call succeeded, that no signal ended before the registration and whose
`select` completes, the trace ends with the completion of the `select`
directly followed by one delete call, and no delete call comes before. -/
theorem delete_once_after_select (w : World μ ν ε) (ns : String)
    (pod created : Pod μ ν ε)
    (hcreate : Event.Create ns pod ∈ (main w).trace) (hok : w.create pod = .ok created)
    (hkill : (main w).ending ≠ .killed) (hexit : (main w).ending ≠ .blocked) :
    ∃ pre c, (main w).trace = pre ++ [.Select c, .Delete w.kubeNamespace pod.Meta.Name] ∧
      (∀ e ∈ pre, e.isDelete = false ∧ e.isSelect = false) ∧
      (main w).trace.countP Event.isDelete = 1 := by
  obtain ⟨_, _, _, ⟨_, hmain⟩ | ⟨_, hmain⟩⟩ := main_of_create_ok w ns pod created hcreate hok
  · rw [hmain] at hkill
    exact absurd rfl hkill
  obtain ⟨fetches, hf, h | ⟨c, en, _, _, h⟩⟩ := mainAfterCreate_shape w pod
  · rw [hmain, h] at hexit
    exact absurd rfl hexit
  · have hpre : ∀ e ∈ (.Get w.kubeNamespace w.currentPodName :: .Create w.kubeNamespace pod ::
        .SetupSignalHandler :: fetches : List (Event μ ν ε)),
        e.isDelete = false ∧ e.isSelect = false := by
      intro e he
      simp only [List.mem_cons] at he
      rcases he with rfl | rfl | rfl | he
      · exact ⟨rfl, rfl⟩
      · exact ⟨rfl, rfl⟩
      · exact ⟨rfl, rfl⟩
      · rw [hf e he]; exact ⟨rfl, rfl⟩
    have htrace : (main w).trace =
        (.Get w.kubeNamespace w.currentPodName :: .Create w.kubeNamespace pod ::
          .SetupSignalHandler :: fetches) ++
          [.Select c, .Delete w.kubeNamespace pod.Meta.Name] := by
      rw [hmain, h]; simp
    refine ⟨_, c, htrace, hpre, ?_⟩
    rw [htrace, List.countP_append,
      List.countP_eq_zero.2 (fun e he => by simp [(hpre e he).1])]
    simp [List.countP_cons, Event.isDelete]

/-- The handler is never registered before the create call: a run that
registers it has made the create call, with success, as the event just before,
and registers it once. -/
theorem handler_registered_only_after_create (w : World μ ν ε)
    (hmem : Event.SetupSignalHandler ∈ (main w).trace) :
    ∃ pod created rest, w.create pod = .ok created ∧
      (main w).trace =
        [.Get w.kubeNamespace w.currentPodName, .Create w.kubeNamespace pod,
          .SetupSignalHandler] ++ rest ∧
      ∀ e ∈ rest, e.isSetup = false ∧ e.isCreate = false := by
  rcases main_cases w with h | h | ⟨cp, cwd, args, pod1, err1, _, _, _, h⟩ |
      ⟨cp, cwd, args, pod1, cr, _, _, _, _, h⟩ | ⟨cp, cwd, args, pod1, cr, _, _, hc, _, h⟩
  · rw [h] at hmem; simp at hmem
  · rw [h] at hmem; simp at hmem
  · rw [h] at hmem; simp at hmem
  · rw [h] at hmem; simp at hmem
  · obtain ⟨fetches, hf, h2 | ⟨c, en, _, _, h2⟩⟩ := mainAfterCreate_shape w pod1
    · refine ⟨pod1, cr, fetches, hc, by rw [h, h2]; simp, ?_⟩
      intro e he
      rw [hf e he]
      exact ⟨rfl, rfl⟩
    · refine ⟨pod1, cr, fetches ++ [.Select c, .Delete w.kubeNamespace pod1.Meta.Name], hc,
        by rw [h, h2]; simp, ?_⟩
      intro e he
      simp only [List.mem_append, List.mem_cons, List.mem_singleton, List.not_mem_nil,
        or_false] at he
      rcases he with he | rfl | rfl
      · rw [hf e he]; exact ⟨rfl, rfl⟩
      · exact ⟨rfl, rfl⟩
      · exact ⟨rfl, rfl⟩

/-- In a run whose create call succeeded, the delete call and the status
fetches never carry the created pod: the delete call names the empty string
and the fetches the empty namespace and the empty string. -/
theorem main_calls_ignore_created_pod (w : World μ ν ε) (ns : String)
    (pod created : Pod μ ν ε)
    (hcreate : Event.Create ns pod ∈ (main w).trace) (hok : w.create pod = .ok created) :
    ∃ rest, (main w).trace =
        .Get w.kubeNamespace w.currentPodName :: .Create w.kubeNamespace pod :: rest ∧
      (∀ ns1 name, Event.Delete ns1 name ∈ rest → ns1 = w.kubeNamespace ∧ name = "") ∧
      (∀ ns1 name, Event.Get ns1 name ∈ rest → ns1 = "" ∧ name = "") := by
  obtain ⟨_, hname, hnsp, ⟨_, hmain⟩ | ⟨_, hmain⟩⟩ :=
    main_of_create_ok w ns pod created hcreate hok
  · exact ⟨[], by rw [hmain], by simp, by simp⟩
  refine ⟨(mainAfterCreate w pod).trace, by rw [hmain], ?_, ?_⟩
  · intro ns1 name hmem
    obtain ⟨fetches, hf, h | ⟨c, en, _, _, h⟩⟩ := mainAfterCreate_shape w pod
    · rw [h] at hmem
      simp only [List.mem_cons, reduceCtorEq, false_or] at hmem
      have := hf _ hmem
      simp at this
    · rw [h] at hmem
      simp only [List.mem_cons, List.mem_append, List.mem_singleton, List.not_mem_nil,
        or_false, reduceCtorEq, false_or, Event.Delete.injEq] at hmem
      rcases hmem with hmem | hmem
      · have := hf _ hmem
        simp at this
      · exact ⟨hmem.1, hmem.2.trans hname⟩
  · intro ns1 name hmem
    obtain ⟨fetches, hf, h | ⟨c, en, _, _, h⟩⟩ := mainAfterCreate_shape w pod
    · rw [h] at hmem
      simp only [List.mem_cons, reduceCtorEq, false_or] at hmem
      have := hf _ hmem
      simp only [Event.Get.injEq] at this
      exact ⟨this.1.trans hnsp, this.2.trans hname⟩
    · rw [h] at hmem
      simp only [List.mem_cons, List.mem_append, List.mem_singleton, List.not_mem_nil,
        or_false, reduceCtorEq, false_or] at hmem
      have := hf _ hmem
      simp only [Event.Get.injEq] at this
      exact ⟨this.1.trans hnsp, this.2.trans hname⟩

end MainLemmas

/-! ## Claims on `main` -/

section MainClaims
variable {μ ν ε : Type}

/-- C2 fails on the code: the orchestrator has accepted the pod and a signal
arrives before line 55 has registered the handler; the process ends there,
with the pod created and no delete call at all.  The claim asks for exactly one
delete call in every run whose create call succeeded. -/
theorem C2_signal_before_handler_no_delete :
    (∃ created, gapSignalWorld.create samplePod = .ok created ∧
      created.Meta.Name = "plex-transcoder-x7k2p") ∧
    Event.Create "media" samplePod ∈ (main gapSignalWorld).trace ∧
    (main gapSignalWorld).ending = .killed ∧
    (main gapSignalWorld).trace.countP Event.isDelete = 0 :=
  ⟨⟨_, rfl, by decide⟩, by decide, by decide, by decide⟩

/-- C3 fails on the code: the orchestrator answers the create call with the
pod `plex-transcoder-x7k2p` in namespace `media`, but the waiter fetches the
pod with empty name in the empty namespace and the delete call names the empty
string, because both read the pod built by `generatePod` and not the pod
returned by the create call. -/
theorem C3_created_name_not_used :
    (∃ created, emptyNameWorld.create samplePod = .ok created ∧
      created.Meta.Name = "plex-transcoder-x7k2p" ∧ created.Meta.Namespace = "media") ∧
    main emptyNameWorld =
      ⟨[.Get "media" "plex-0", .Create "media" samplePod, .SetupSignalHandler,
        .Get "" "", .Select (.waiter (some (.fetch "resource name may not be empty"))),
        .Delete "media" ""],
       .fatal "Error cleaning up pod: resource name may not be empty"⟩ :=
  ⟨⟨_, rfl, by decide, by decide⟩, by decide⟩

/-- C4: a run of `main` makes at most one create call; when that call is
answered with an error the run is exactly the fetch of the reference pod and
the create call, followed by the fatal exit, so there is no status fetch and no
delete call; when the fetch of the reference pod is answered with an error the
run has neither a create nor a delete call. -/
theorem C4_at_most_one_create (w : World μ ν ε) :
    (main w).trace.countP Event.isCreate ≤ 1 ∧
    (∀ ns pod err, Event.Create ns pod ∈ (main w).trace → w.create pod = .error err →
      main w = ⟨[.Get w.kubeNamespace w.currentPodName, .Create ns pod],
        .fatal ("Error creating pod: " ++ err)⟩) ∧
    (∀ err, w.getCurrentPod = .error err →
      ∀ e ∈ (main w).trace, e.isCreate = false ∧ e.isDelete = false) := by
  rcases main_cases w with h | h | ⟨cp, cwd, args, pod1, err1, hcp, _, hc, h⟩ |
      ⟨cp, cwd, args, pod1, cr, hcp, _, hc, _, h⟩ | ⟨cp, cwd, args, pod1, cr, hcp, _, hc, _, h⟩
  · rw [h]
    simp
  · rw [h]
    refine ⟨by simp [List.countP_cons, Event.isCreate], by simp, ?_⟩
    intro err _ e he
    simp only [List.mem_singleton] at he
    subst he
    exact ⟨rfl, rfl⟩
  · refine ⟨by rw [h]; simp [List.countP_cons, Event.isCreate], ?_, ?_⟩
    · intro ns pod err hmem herr
      rw [h] at hmem
      simp only [List.mem_cons, List.mem_singleton, List.not_mem_nil, or_false, false_or,
        Event.Create.injEq, reduceCtorEq] at hmem
      obtain ⟨hns, hp⟩ := hmem
      subst hp
      subst hns
      rw [hc] at herr
      cases herr
      exact h
    · intro err herr
      rw [hcp] at herr
      cases herr
  · refine ⟨by rw [h]; simp [List.countP_cons, Event.isCreate], ?_, ?_⟩
    · intro ns pod err hmem herr
      rw [h] at hmem
      simp only [List.mem_cons, List.mem_singleton, List.not_mem_nil, or_false, false_or,
        Event.Create.injEq, reduceCtorEq] at hmem
      obtain ⟨_, hp⟩ := hmem
      subst hp
      rw [hc] at herr
      cases herr
    · intro err herr
      rw [hcp] at herr
      cases herr
  · refine ⟨?_, ?_, ?_⟩
    · rw [h]
      simp only [List.countP_cons, Event.isCreate]
      rw [List.countP_eq_zero.2 (fun e he => by
        simp [mainAfterCreate_no_create w pod1 e he])]
      simp
    · intro ns pod err hmem herr
      obtain ⟨created, hcr⟩ : ∃ created, w.create pod = .ok created := by
        rw [h] at hmem
        simp only [List.mem_cons, Event.Create.injEq, reduceCtorEq, false_or] at hmem
        rcases hmem with ⟨_, hp⟩ | hmem
        · subst hp
          exact ⟨cr, hc⟩
        · have := mainAfterCreate_no_create w pod1 _ hmem
          simp [Event.isCreate] at this
      rw [hcr] at herr
      cases herr
    · intro err herr
      rw [hcp] at herr
      cases herr

/-- C4 at two runs: the create call refused, and the reference pod not found. -/
theorem C4_refused_runs :
    main createRefusedWorld =
      ⟨[.Get "media" "plex-0", .Create "media" samplePod],
        .fatal "Error creating pod: forbidden"⟩ ∧
    (∀ e ∈ (main noReferenceWorld).trace, e.isCreate = false ∧ e.isDelete = false) ∧
    (main sampleWorld).trace.countP Event.isCreate ≤ 1 :=
  ⟨(C4_at_most_one_create createRefusedWorld).2.1 "media" samplePod "forbidden"
      (by decide) rfl,
    (C4_at_most_one_create noReferenceWorld).2.2 "not found" rfl,
    (C4_at_most_one_create sampleWorld).1⟩

/-- C6 fails on the code: the create call of line 49 is issued with no handler
registered, and the handler is registered by line 55 only.  In the run without
a signal the registration is the third event, after the create call; with a
signal between the two the run ends after the create call, the handler never
registered. -/
theorem C6_create_issued_before_registration :
    (main sampleWorld).trace.take 3 =
      [.Get "media" "plex-0", .Create "media" samplePod, .SetupSignalHandler] ∧
    (main sampleWorld).trace.indexOf (.Create "media" samplePod) <
      (main sampleWorld).trace.indexOf .SetupSignalHandler ∧
    main gapSignalWorld =
      ⟨[.Get "media" "plex-0", .Create "media" samplePod], .killed⟩ ∧
    Event.SetupSignalHandler ∉ (main gapSignalWorld).trace := by
  decide

end MainClaims

/-! ## Evaluations -/

/-- The run without a signal, event by event: the waiter's fetch and the
delete call, both for the empty name, are refused by the client. -/
theorem main_sampleWorld :
    main sampleWorld =
      ⟨[.Get "media" "plex-0", .Create "media" samplePod, .SetupSignalHandler,
        .Get "" "", .Select (.waiter (some (.fetch "resource name may not be empty"))),
        .Delete "media" ""],
       .fatal "Error cleaning up pod: resource name may not be empty"⟩ := by
  decide

/-- The run with a signal during the wait, before the waiter's first fetch. -/
theorem main_cancelledWorld :
    main cancelledWorld =
      ⟨[.Get "media" "plex-0", .Create "media" samplePod, .SetupSignalHandler,
        .Select .stop, .Delete "media" ""],
       .fatal "Error cleaning up pod: resource name may not be empty"⟩ := by
  decide

/-- The clean-up of the two runs above, through `delete_once_after_select`. -/
theorem delete_once_samples :
    (main sampleWorld).trace.countP Event.isDelete = 1 ∧
    (main cancelledWorld).trace.countP Event.isDelete = 1 := by
  obtain ⟨_, _, _, _, h1⟩ :=
    delete_once_after_select sampleWorld "media" samplePod _ (by decide) rfl (by decide)
      (by decide)
  obtain ⟨_, _, _, _, h2⟩ :=
    delete_once_after_select cancelledWorld "media" samplePod _ (by decide) rfl (by decide)
      (by decide)
  exact ⟨h1, h2⟩

/-- The pod derived from the sample reference pod. -/
theorem generatePod_sampleRef :
    generatePod sampleRef "/transcode" sampleArgs = .ok samplePod := by
  decide

/-- In-place rewriting: a flag that an earlier flag has overwritten is not
seen, a flag created by a replacement is, and a flag that ends up last panics. -/
theorem rewriteArgs_samples :
    rewriteArgs "A" ["-loglevel", "-loglevel", "x"] = .ok ["-loglevel", "debug", "x"] ∧
    rewriteArgs "-loglevel" ["-progressurl", "http://127.0.0.1:32400", "x"] =
      .ok ["-progressurl", "-loglevel", "debug"] ∧
    rewriteArgs "" ["-progressurl", "-loglevelhttp://127.0.0.1:32400"] =
      .error (.indexOutOfRange 2 2) ∧
    rewriteArgs "http://plex:32400" sampleFlagArgs =
      .ok ["/usr/lib/plexmediaserver/Plex Transcoder", "-progressurl",
        "http://plex:32400/video/:/transcode/session/abc/progress", "-loglevel", "debug",
        "out.mpd"] := by
  decide

end KubePlex
